import Mathlib

/-!
Shallow embedding of the virtualized-list engine in
`src/Virtualizer/VirtualManager.ts` (the repository's dominant file), together
with theorems settling the specification claims about it.

Pixel geometry (element sizes, positions, scroll offsets — integral DOM
pixel values in every scenario the claims quantify concretely) is modelled
over `ℤ`; genuinely fractional values (pin fractions in `[0,1]`, running
means before rounding) over `ℚ`.  JavaScript strings are modelled as
Lean `String` (or `List Char` where character-level reasoning is needed);
`Map` / plain-object lookup tables as association lists; `Set` as an
insertion-ordered duplicate-free list.
-/

namespace VirtualManager

/-- Modelled from the spec: the minimal rectangle value object
(`src/common/Rect.ts` is not under `src/`; spec §2 "Geometry types — minimal
rectangle and margin value objects"). -/
structure Rect where
  x : ℤ
  y : ℤ
  width : ℤ
  height : ℤ
deriving DecidableEq, Repr

/-- Modelled from the spec: the margin value object (`src/common/Margin.ts` is
not under `src/`). Only the four sides and the `horizontal`/`vertical` sums
are used by `VirtualManager`. -/
structure Margin where
  left : ℤ
  top : ℤ
  right : ℤ
  bottom : ℤ
deriving DecidableEq, Repr

def Margin.horizontal (m : Margin) : ℤ := m.left + m.right

def Margin.vertical (m : Margin) : ℤ := m.top + m.bottom

/-- The zero margin, `new Margin(0)`. -/
def Margin.zero : Margin := ⟨0, 0, 0, 0⟩

/-- JavaScript `Math.round`: rounds half-fractions toward positive infinity. -/
def jsRound (q : ℚ) : ℤ := ⌊q + 1 / 2⌋

/-- `ClassProperties` (VirtualManager.ts lines 43-80): per item-kind cached
css facts and the running size average.  In the source `width`/`height` are
definitely-assigned fields first written by `setItemSize`; they are modelled
with initial value `0`.  The constructor takes only `type`; `cssInline` and
`cssMargin` are written later from computed css, so they are plain fields
here. -/
structure ClassProperties where
  type : String
  cssInline : Bool
  cssMargin : Margin
  width : ℤ := 0
  height : ℤ := 0
  valid : Bool := false
  totalItemWidth : ℤ := 0
  totalItemHeight : ℤ := 0
  totalItemCount : ℕ := 0
deriving DecidableEq, Repr

/-- `ClassProperties.invalidate` (lines 62-67): clears `valid` and the three
running totals.  It does not touch `width`, `height`, `cssMargin` or
`cssInline`. -/
def ClassProperties.invalidate (cp : ClassProperties) : ClassProperties :=
  { cp with
    valid := false
    totalItemCount := 0
    totalItemWidth := 0
    totalItemHeight := 0 }

/-- `ClassProperties.setItemSize` (lines 71-79): accumulate the sample into
the running totals, then recompute `width`/`height` as the rounded means. -/
def ClassProperties.setItemSize (cp : ClassProperties) (width height : ℤ) :
    ClassProperties :=
  let totalItemWidth := cp.totalItemWidth + width
  let totalItemHeight := cp.totalItemHeight + height
  let totalItemCount := cp.totalItemCount + 1
  { cp with
    totalItemWidth := totalItemWidth
    totalItemHeight := totalItemHeight
    totalItemCount := totalItemCount
    width := jsRound ((totalItemWidth : ℚ) / (totalItemCount : ℚ))
    height := jsRound ((totalItemHeight : ℚ) / (totalItemCount : ℚ)) }

/-- `new ClassProperties(type)` (lines 58-60). -/
def ClassProperties.fresh (type : String) : ClassProperties :=
  { type := type, cssInline := false, cssMargin := Margin.zero }

/-- Fold a list of `(width, height)` samples through `setItemSize`; the state
of a kind's record after that sequence of measurement notifications. -/
def applySamples (cp : ClassProperties) (samples : List (ℤ × ℤ)) :
    ClassProperties :=
  samples.foldl (fun c s => c.setItemSize s.1 s.2) cp

/-- `ItemProperties` (lines 82-91): per-item cached rectangle plus the item's
kind; `implements Rect`, all numeric fields initialized to `0`. -/
structure ItemProperties where
  x : ℤ := 0
  y : ℤ := 0
  width : ℤ := 0
  height : ℤ := 0
  type : String
deriving DecidableEq, Repr

/-- The `Rect` view of a cached `ItemProperties` record (the class
`implements Rect`; `getItemRect` returns the record itself). -/
def ItemProperties.toRect (p : ItemProperties) : Rect :=
  ⟨p.x, p.y, p.width, p.height⟩

/-- The duplicate scan inside `update` (lines 159-168): walk the keys of the
incoming item sequence front to back with a seen-set, returning the first key
that repeats.  (The source also inserts each item into `itemLookup` as it
goes; that write does not affect whether the error is thrown.) -/
def findDuplicate : List String → List String → Option String
  | [], _ => none
  | k :: rest, seen =>
    if seen.contains k then some k else findDuplicate rest (k :: seen)

/-- `VirtualManager.update` (lines 151-174), restricted to its raising
behaviour: when `isScrolling` is set the duplicate scan (and the layout
trigger) is skipped entirely; otherwise a duplicate key raises
`Error("Item keys must be unique. Found duplicate: " + key)`. -/
def update (isScrolling : Bool) (itemKeys : List String) : Except String Unit :=
  if isScrolling then Except.ok ()
  else
    match findDuplicate itemKeys [] with
    | some k => Except.error ("Item keys must be unique. Found duplicate: " ++ k)
    | none => Except.ok ()

/-- An item as the Visibility Calculator sees it: its stable key, its kind
string, and the result of the caller's `itemRect(item)` function (meaningful
only when a rect function was supplied at all). -/
structure VItem where
  key : String
  type : String
  manualRect : Option Rect := none
deriving DecidableEq, Repr

/-- The state read by `getRenderItemIndices` / `updateIndexes`: the item
sequence, the per-key cached `itemProperties` table, whether a rect function
was supplied (`isManualLayout`), the container scroll offset and client
height, and the key owning input focus (from `getFocusedItemKey`). -/
structure VisibilityInput where
  items : List VItem
  itemProperties : List (String × ItemProperties)
  manualLayout : Bool
  scrollTop : ℤ
  pageSize : ℤ
  focusedKey : Option String
deriving Repr

/-- `initialVisibleItemCount` (line 18). -/
def initialVisibleItemCount : ℕ := 30

/-- `get prerenderOtherDirection` (lines 369-371). -/
def prerenderOtherDirection : ℤ := 100

/-- `get prerenderScrollDirection` (lines 373-375). -/
def prerenderScrollDirection : ℤ := 500

/-- `getItemRect` (lines 202-222): the caller-supplied rectangle when a rect
function exists and yields one for this item, else the cached
`itemProperties` entry, else nothing.  (The fatal partial-rectangle check is
not representable here: modelled rectangles always carry all four fields.) -/
def getItemRect (manualLayout : Bool)
    (itemProperties : List (String × ItemProperties)) (item : VItem) :
    Option Rect :=
  match (if manualLayout then item.manualRect else none) with
  | some r => some r
  | none => (itemProperties.lookup item.key).map ItemProperties.toRect

/-- Insertion-ordered `Set.add`: append the element unless already present. -/
def addSet (l : List String) (k : String) : List String :=
  if k ∈ l then l else l ++ [k]

/-- The asymmetric window test of line 411:
`rect && ((rect.y + rect.height) > top) && (rect.y <= bottom)`. -/
def passesWindow (vi : VisibilityInput) (top bottom : ℤ) (item : VItem) : Bool :=
  match getItemRect vi.manualLayout vi.itemProperties item with
  | some r => decide (r.y + r.height > top) && decide (r.y ≤ bottom)
  | none => false

/-- The single pass over the items (lines 404-420), accumulating the render
key set, the existing key set, and — in flow mode — the first key of each
kind that failed the window test (`presizeTypes`). -/
def scanItems (vi : VisibilityInput) (top bottom : ℤ) (presize : Bool) :
    List VItem → List String → List String → List (String × String) →
    List String × List String × List (String × String)
  | [], render, existing, presizeTypes => (render, existing, presizeTypes)
  | item :: rest, render, existing, presizeTypes =>
    let existing := addSet existing item.key
    if passesWindow vi top bottom item then
      scanItems vi top bottom presize rest (addSet render item.key) existing presizeTypes
    else if presize && (presizeTypes.lookup item.type).isNone then
      scanItems vi top bottom presize rest render existing
        (presizeTypes ++ [(item.type, item.key)])
    else
      scanItems vi top bottom presize rest render existing presizeTypes

/-- The window computation of `getRenderItemIndices` (lines 382-393): clamp
the scroll offset at `0`, collapse the scroll-direction margin to the other
margin when not scrolling, subtract the trailing margin from the top (clamped
at `0` again), then place the bottom a full `pageSize + both margins` below
the resulting top. -/
def renderWindow (vi : VisibilityInput) (scrollDirection : ℤ) : ℤ × ℤ :=
  let top := max 0 vi.scrollTop
  let psd := if scrollDirection = 0 then prerenderOtherDirection
             else prerenderScrollDirection
  let totalPagesHeight := vi.pageSize + psd + prerenderOtherDirection
  let top := max 0 (top - (if scrollDirection ≥ 0 then prerenderOtherDirection else psd))
  (top, top + totalPagesHeight)

/-- `getRenderItemIndices` (lines 381-443): the window scan, then the
first-`initialVisibleItemCount` fallback when nothing intersected, then the
focused key, then the presize candidates.  Returns
`(renderKeys, existingKeys)`. -/
def getRenderItemIndices (vi : VisibilityInput) (scrollDirection : ℤ) :
    List String × List String :=
  let top := (renderWindow vi scrollDirection).1
  let bottom := (renderWindow vi scrollDirection).2
  let presize := !vi.manualLayout
  let scanned := scanItems vi top bottom presize vi.items [] [] []
  let render := scanned.1
  let existing := scanned.2.1
  let presizeTypes := scanned.2.2
  let render :=
    if render.length = 0 then
      (vi.items.take initialVisibleItemCount).foldl (fun r i => addSet r i.key) render
    else render
  let render :=
    match vi.focusedKey with
    | some k => addSet render k
    | none => render
  let render := presizeTypes.foldl (fun r p => addSet r p.2) render
  (render, existing)

/-- The desired-key set as the code actually builds it, stated declaratively:
a key is in the output iff some item carries it and passes the window test,
or nothing passed the test and it is among the first 30 item keys, or it is
the focused key, or (flow layout) it is the first item of its kind to fail
the window test — the presize candidate. -/
def desiredKeySpec (vi : VisibilityInput) (scrollDirection : ℤ) (key : String) :
    Prop :=
  let top := (renderWindow vi scrollDirection).1
  let bottom := (renderWindow vi scrollDirection).2
  (∃ i ∈ vi.items, passesWindow vi top bottom i = true ∧ i.key = key)
  ∨ ((∀ i ∈ vi.items, passesWindow vi top bottom i = false)
      ∧ key ∈ (vi.items.take initialVisibleItemCount).map VItem.key)
  ∨ vi.focusedKey = some key
  ∨ (vi.manualLayout = false
      ∧ ∃ i, vi.items.find?
            (fun j => !passesWindow vi top bottom j && j.type == i.type) = some i
          ∧ i.key = key)

/-- The window exactly as claim C2 words it:
`[scrollOffset − margin_behind, scrollOffset + viewportHeight + margin_ahead]`
with the asymmetric intersection test. -/
def claimWindowTest (scrollOffset viewportHeight marginAhead marginBehind : ℤ)
    (r : Rect) : Prop :=
  r.y + r.height > scrollOffset - marginBehind
    ∧ r.y ≤ scrollOffset + viewportHeight + marginAhead

/-- Replace the first binding of `key` in the store (or append one): the
effect on the `itemProperties` table of mutating / inserting the record for
`key`. -/
def storeUpdate (store : List (String × ItemProperties)) (key : String)
    (p : ItemProperties) : List (String × ItemProperties) :=
  match store with
  | [] => [(key, p)]
  | (k, q) :: rest =>
    if k = key then (k, p) :: rest else (k, q) :: storeUpdate rest key p

/-- `getItemProperties` (lines 633-648): fetch or lazily create the per-item
record, then seed a zero width/height from the kind's running average.  The
source mutates the stored object; here the updated record and the updated
store are returned. -/
def getItemProperties (store : List (String × ItemProperties))
    (classProperties : List (String × ClassProperties)) (key type : String) :
    ItemProperties × List (String × ItemProperties) :=
  let props :=
    match store.lookup key with
    | some p => p
    | none => { type := type }
  let props :=
    match classProperties.lookup type with
    | some classProps =>
      let props := if props.width = 0 then { props with width := classProps.width }
                   else props
      if props.height = 0 then { props with height := classProps.height }
      else props
    | none => props
  (props, storeUpdate store key props)

/-- The absolute style applied to a materialized element during flow layout
(lines 289-300): `left`/`top` always, `width` only for non-inline kinds. -/
structure AppliedStyle where
  left : ℤ
  top : ℤ
  width : Option ℤ
deriving DecidableEq, Repr

/-- The flow-layout loop state: the pen `(x, y)`, the running extent
`height`, the item-property store, and the styles applied to materialized
elements so far. -/
structure FlowState where
  x : ℤ := 0
  y : ℤ := 0
  height : ℤ := 0
  store : List (String × ItemProperties) := []
  applied : List (String × AppliedStyle) := []
deriving DecidableEq, Repr

/-- The flow-layout item loop of `layoutChildren` (lines 244-301, with
`this.itemRect == null`).  `width` is the content width
(`containerWidth − containerPadding.horizontal`); `elements` is the set of
keys that currently have a materialized element.  A kind with no cached
`ClassProperties` stops the loop (`console.warn` + `break`), after
`getItemProperties` has already created the item's record. -/
def layoutFlowItems (width : ℤ) (pad : Margin)
    (classProperties : List (String × ClassProperties))
    (elements : List String) : List VItem → FlowState → FlowState
  | [], st => st
  | item :: rest, st =>
    let (properties, store) :=
      getItemProperties st.store classProperties item.key item.type
    match classProperties.lookup item.type with
    | none => { st with store := store }
    | some classProps =>
      let margin := classProps.cssMargin
      let inline := classProps.cssInline
      let elementWidth := properties.width + margin.horizontal
      let elementHeight := properties.height + margin.vertical
      let (x, y) :=
        if !inline || (st.x + elementWidth > width) then ((0 : ℤ), st.height)
        else (st.x, st.y)
      let left := x + pad.left
      let top := y + pad.top
      let height := max st.height (y + elementHeight)
      let (x, y) := if inline then (x + elementWidth, y) else (x, y + elementHeight)
      let store := storeUpdate store item.key { properties with x := left, y := top }
      let applied :=
        if item.key ∈ elements then
          st.applied ++ [(item.key,
            { left := left, top := top,
              width := if inline then none else some (width - margin.horizontal) })]
        else st.applied
      layoutFlowItems width pad classProperties elements rest
        { x := x, y := y, height := height, store := store, applied := applied }

/-- Flow-mode `layoutChildren` (lines 235-307) up to the scroll-anchor
correction: start the pen at the origin with extent `0` and content width
`containerWidth − containerPadding.horizontal`, run the item loop, and
report the final extent (the placeholder height), store and applied
styles. -/
def layoutChildrenFlow (containerWidth : ℤ) (containerPadding : Margin)
    (classProperties : List (String × ClassProperties))
    (elements : List String) (items : List VItem)
    (store : List (String × ItemProperties)) : FlowState :=
  layoutFlowItems (containerWidth - containerPadding.horizontal)
    containerPadding classProperties elements items
    { x := 0, y := 0, height := 0, store := store, applied := [] }

/-- `ScrollAnchor` (lines 37-41). -/
structure ScrollAnchor where
  itemKey : String
  itemPin : ℚ
  windowPin : ℚ
deriving DecidableEq, Repr

/-- `correctForScrollAnchor` (lines 309-327): with an anchor set and cached
properties for its item, compute
`correction = (scrollTop − height·itemPin + clientHeight·windowPin) − cachedY`;
a zero correction clears the anchor, a nonzero one moves `scrollTop` by
`−correction` and keeps the anchor.  Returns the new anchor and the new
`scrollTop`. -/
def correctForScrollAnchor (anchor : Option ScrollAnchor)
    (itemProperties : List (String × ItemProperties))
    (scrollTop clientHeight : ℚ) : Option ScrollAnchor × ℚ :=
  match anchor with
  | none => (none, scrollTop)
  | some a =>
    match itemProperties.lookup a.itemKey with
    | none => (some a, scrollTop)
    | some itemProps =>
      let currentOffset := (itemProps.y : ℚ)
      let targetOffset := scrollTop - (itemProps.height : ℚ) * a.itemPin
        + clientHeight * a.windowPin
      let correction := targetOffset - currentOffset
      if correction = 0 then (none, scrollTop)
      else (some a, scrollTop - correction)

/-- A `container.scrollTo` request issued by `scrollToItem`. -/
structure ScrollCommand where
  top : ℚ
  smooth : Bool
deriving DecidableEq, Repr

/-- The engine state read and written by `scrollToItem`. -/
structure ScrollToState where
  itemLookup : List (String × VItem)
  itemProperties : List (String × ItemProperties)
  manualLayout : Bool
  clientHeight : ℚ
  scrollAnchor : Option ScrollAnchor
deriving Repr

/-- `scrollToItem` (lines 609-630): resolve the item by key, resolve its
rectangle via `getItemRect`; if both exist, either smooth-scroll (manual
layout) or set a scroll anchor and jump (flow layout).  Returns the new
state and the scroll request, if any. -/
def scrollToItem (s : ScrollToState) (key : String) (position : Option ℚ) :
    ScrollToState × Option ScrollCommand :=
  match s.itemLookup.lookup key with
  | none => (s, none)
  | some item =>
    let itemPin := position.getD 0
    let windowPin := position.getD 0
    match getItemRect s.manualLayout s.itemProperties item with
    | none => (s, none)
    | some bounds =>
      let targetScrollTop := (bounds.y : ℚ) - itemPin * (bounds.height : ℚ)
        + windowPin * s.clientHeight
      if s.manualLayout then
        (s, some { top := targetScrollTop, smooth := true })
      else
        let anchor : ScrollAnchor :=
          { itemKey := key, itemPin := itemPin, windowPin := windowPin }
        ({ s with scrollAnchor := some anchor },
          some { top := targetScrollTop, smooth := false })

/-- Modelled from the spec: `getStableArray` (imported from
`src/Virtualizer/getStableArray.ts`, which is not under `src/`).  Spec §4.3:
preserve the relative order of keys present in both the previous and desired
sets; retain previously rendered keys that are no longer desired but still
exist in the data; drop keys whose items no longer exist at all; append
newly desired keys. -/
def getStableArraySpec (previousKeys desiredKeys existingKeys : List String) :
    List String :=
  previousKeys.filter (fun k => desiredKeys.contains k || existingKeys.contains k)
    ++ desiredKeys.filter (fun k => !previousKeys.contains k)

/-- The visual treatment applied by `updateIndexes` (lines 508-517) to each
reconciled key's element: `display` is set to `"none"` exactly when the key
is absent from the existing-key set (`deleted`), and cleared to `""`
otherwise.  (Keys with no materialized element are skipped in the source;
here every key is given its would-be treatment.) -/
def applyDisplayStyles (newKeys existingKeys : List String) :
    List (String × String) :=
  newKeys.map fun key =>
    (key, if existingKeys.contains key then "" else "none")

/-- Hex digit character as produced for a JSON `\u00XX` escape. -/
def hexDigitChar (n : ℕ) : Char :=
  Char.ofNat (if n < 10 then 48 + n else 87 + n)

/-- One character of `JSON.stringify`'s string quoting: `"` and `\` get a
backslash escape, the five named control characters get their short escapes,
the remaining control characters get `\u00XX`, everything else is emitted
as-is. -/
def escapeChar (c : Char) : List Char :=
  if c = '"' then ['\\', '"']
  else if c = '\\' then ['\\', '\\']
  else if c.toNat = 8 then ['\\', 'b']
  else if c.toNat = 9 then ['\\', 't']
  else if c.toNat = 10 then ['\\', 'n']
  else if c.toNat = 12 then ['\\', 'f']
  else if c.toNat = 13 then ['\\', 'r']
  else if c.toNat < 32 then
    ['\\', 'u', '0', '0', hexDigitChar (c.toNat / 16), hexDigitChar (c.toNat % 16)]
  else [c]

def escapeChars : List Char → List Char
  | [] => []
  | c :: rest => escapeChar c ++ escapeChars rest

/-- A quoted JSON string literal. -/
def renderString (s : List Char) : List Char :=
  '"' :: (escapeChars s ++ ['"'])

def renderArrayRest : List (List Char) → List Char
  | [] => [']']
  | s :: rest => ',' :: (renderString s ++ renderArrayRest rest)

/-- `JSON.stringify` on an array of strings, at the character level. -/
def renderArray : List (List Char) → List Char
  | [] => ['[', ']']
  | s :: rest => '[' :: (renderString s ++ renderArrayRest rest)

/-- Numeric value of a lowercase hex digit. -/
def hexVal (c : Char) : Option ℕ :=
  if 48 ≤ c.toNat ∧ c.toNat ≤ 57 then some (c.toNat - 48)
  else if 97 ≤ c.toNat ∧ c.toNat ≤ 102 then some (c.toNat - 87)
  else none

/-- Prepend a decoded character to a string-parse result. -/
def consDecoded (c : Char) :
    Option (List Char × List Char) → Option (List Char × List Char)
  | some (s, rest) => some (c :: s, rest)
  | none => none

/-- Decoder for the string quoting of `renderString`, consuming input after
the opening quote and returning the decoded string and the input after the
closing quote.  Used only to prove `renderArray` injective. -/
def parseJsonString : List Char → Option (List Char × List Char)
  | [] => none
  | c :: rest =>
    if c = '"' then some ([], rest)
    else if c = '\\' then
      match rest with
      | [] => none
      | e :: rest2 =>
        if e = '"' then consDecoded '"' (parseJsonString rest2)
        else if e = '\\' then consDecoded '\\' (parseJsonString rest2)
        else if e = 'b' then consDecoded (Char.ofNat 8) (parseJsonString rest2)
        else if e = 't' then consDecoded (Char.ofNat 9) (parseJsonString rest2)
        else if e = 'n' then consDecoded (Char.ofNat 10) (parseJsonString rest2)
        else if e = 'f' then consDecoded (Char.ofNat 12) (parseJsonString rest2)
        else if e = 'r' then consDecoded (Char.ofNat 13) (parseJsonString rest2)
        else if e = 'u' then
          match rest2 with
          | h1 :: h2 :: h3 :: h4 :: rest3 =>
            match hexVal h1, hexVal h2, hexVal h3, hexVal h4 with
            | some v1, some v2, some v3, some v4 =>
              consDecoded (Char.ofNat (((v1 * 16 + v2) * 16 + v3) * 16 + v4))
                (parseJsonString rest3)
            | _, _, _, _ => none
          | _ => none
        else none
    else consDecoded c (parseJsonString rest)
termination_by structural l => l

/-- Fueled decoder for `renderArrayRest`; one unit of fuel per array
element. -/
def parseArrayRest : ℕ → List Char → Option (List (List Char))
  | _, [] => none
  | fuel, c :: rest =>
    if c = ']' then (if rest = [] then some [] else none)
    else if c = ',' then
      match fuel with
      | 0 => none
      | fuel + 1 =>
        match rest with
        | '"' :: rest2 =>
          match parseJsonString rest2 with
          | some (s, r) => (parseArrayRest fuel r).map (fun l => s :: l)
          | none => none
        | _ => none
    else none

/-- Decoder for `renderArray`. -/
def parseArray : List Char → Option (List (List Char)) :=
  fun l =>
    match l with
    | '[' :: rest =>
      if rest = [']'] then some []
      else
        match rest with
        | '"' :: rest2 =>
          match parseJsonString rest2 with
          | some (s, r) => (parseArrayRest r.length r).map (fun l => s :: l)
          | none => none
        | _ => none
    | _ => none

/-- `JSON.stringify(keys)` for a `string[]` value. -/
def jsonStringify (keys : List String) : String :=
  String.mk (renderArray (keys.map String.data))

/-- The re-render decision of `updateIndexes` (line 522): the
`setRenderKeys` callback fires iff
`oldKeys.length !== newKeys.length || JSON.stringify(oldKeys) !== JSON.stringify(newKeys)`. -/
def updateIndexesFires (oldKeys newKeys : List String) : Bool :=
  decide (oldKeys.length ≠ newKeys.length)
    || decide (jsonStringify oldKeys ≠ jsonStringify newKeys)

/-- Claim C3's scenario: viewport height 400, scroll offset 1000, scrolling
downward, 45 items of 50px height laid out contiguously from `y = 0`
(caller-supplied rectangles). -/
def scenarioC3 : VisibilityInput :=
  { items := (List.range 45).map (fun n =>
      { key := toString n, type := "t",
        manualRect := some { x := 0, y := 50 * (n : ℤ), width := 100, height := 50 } }),
    itemProperties := [],
    manualLayout := true,
    scrollTop := 1000,
    pageSize := 400,
    focusedKey := none }

/-- Claim C2's counterexample input: scroll offset `0` (smaller than the
behind margin), two items with caller-supplied rectangles — `"a"` at
`y ∈ [950, 960]` and `"b"` at `y ∈ [100, 150]`. -/
def scenarioC2 : VisibilityInput :=
  { items :=
      [{ key := "a", type := "t",
          manualRect := some { x := 0, y := 950, width := 100, height := 10 } },
        { key := "b", type := "t",
          manualRect := some { x := 0, y := 100, width := 100, height := 50 } }],
    itemProperties := [],
    manualLayout := true,
    scrollTop := 0,
    pageSize := 400,
    focusedKey := none }

/-- Claim C4's scenario kinds: a block kind `header` of estimated height 40
and an inline kind `tile` of estimated size 100×50, both with zero margin. -/
def scenarioC4Kinds : List (String × ClassProperties) :=
  [("header",
    { type := "header", cssInline := false, cssMargin := Margin.zero,
      width := 0, height := 40 }),
   ("tile",
    { type := "tile", cssInline := true, cssMargin := Margin.zero,
      width := 100, height := 50 })]

/-- Claim C4's item sequence `[header, tile×5]`. -/
def scenarioC4Items : List VItem :=
  [{ key := "h", type := "header" }, { key := "t1", type := "tile" },
   { key := "t2", type := "tile" }, { key := "t3", type := "tile" },
   { key := "t4", type := "tile" }, { key := "t5", type := "tile" }]

/-- Claim C4's flow layout result: container content width 300, zero
padding, every item materialized, nothing measured yet. -/
def scenarioC4Layout : FlowState :=
  layoutChildrenFlow 300 Margin.zero scenarioC4Kinds
    (scenarioC4Items.map VItem.key) scenarioC4Items []

/-- A state for `scrollToItem` whose single item has no caller-supplied
rectangle and no cached properties. -/
def scenarioC10 : ScrollToState :=
  { itemLookup := [("a", { key := "a", type := "t", manualRect := none })],
    itemProperties := [],
    manualLayout := false,
    clientHeight := 400,
    scrollAnchor := none }

end VirtualManager

namespace VirtualManager

theorem setItemSize_totalItemWidth (cp : ClassProperties) (w h : ℤ) :
    (cp.setItemSize w h).totalItemWidth = cp.totalItemWidth + w := rfl

theorem setItemSize_totalItemHeight (cp : ClassProperties) (w h : ℤ) :
    (cp.setItemSize w h).totalItemHeight = cp.totalItemHeight + h := rfl

theorem setItemSize_totalItemCount (cp : ClassProperties) (w h : ℤ) :
    (cp.setItemSize w h).totalItemCount = cp.totalItemCount + 1 := rfl

theorem setItemSize_width (cp : ClassProperties) (w h : ℤ) :
    (cp.setItemSize w h).width
      = jsRound (((cp.totalItemWidth + w : ℤ) : ℚ) / ((cp.totalItemCount + 1 : ℕ) : ℚ)) := by
  simp [ClassProperties.setItemSize]

theorem setItemSize_height (cp : ClassProperties) (w h : ℤ) :
    (cp.setItemSize w h).height
      = jsRound (((cp.totalItemHeight + h : ℤ) : ℚ) / ((cp.totalItemCount + 1 : ℕ) : ℚ)) := by
  simp [ClassProperties.setItemSize]

theorem applySamples_cons (cp : ClassProperties) (s : ℤ × ℤ)
    (rest : List (ℤ × ℤ)) :
    applySamples cp (s :: rest) = applySamples (cp.setItemSize s.1 s.2) rest := rfl

theorem applySamples_mean (samples : List (ℤ × ℤ)) (cp : ClassProperties)
    (h : samples ≠ []) :
    (applySamples cp samples).width
        = jsRound (((cp.totalItemWidth + (samples.map Prod.fst).sum : ℤ) : ℚ)
            / ((cp.totalItemCount + samples.length : ℕ) : ℚ))
      ∧ (applySamples cp samples).height
        = jsRound (((cp.totalItemHeight + (samples.map Prod.snd).sum : ℤ) : ℚ)
            / ((cp.totalItemCount + samples.length : ℕ) : ℚ)) := by
  induction samples generalizing cp with
  | nil => exact absurd rfl h
  | cons s rest ih =>
    rw [applySamples_cons]
    by_cases hr : rest = []
    · subst hr
      simp only [applySamples, List.foldl_nil, setItemSize_width,
        setItemSize_height, List.map_cons, List.map_nil, List.sum_cons,
        List.sum_nil, List.length_cons, List.length_nil]
      constructor <;> · norm_num
    · have hind := ih (cp.setItemSize s.1 s.2) hr
      obtain ⟨h1, h2⟩ := hind
      rw [h1, h2]
      simp only [setItemSize_totalItemWidth, setItemSize_totalItemHeight,
        setItemSize_totalItemCount, List.map_cons, List.sum_cons,
        List.length_cons]
      have e2 : cp.totalItemCount + 1 + rest.length
          = cp.totalItemCount + (rest.length + 1) := by omega
      constructor
      · have e1 : cp.totalItemWidth + s.1 + (List.map Prod.fst rest).sum
            = cp.totalItemWidth + (s.1 + (List.map Prod.fst rest).sum) := by ring
        rw [e1, e2]
      · have e1 : cp.totalItemHeight + s.2 + (List.map Prod.snd rest).sum
            = cp.totalItemHeight + (s.2 + (List.map Prod.snd rest).sum) := by ring
        rw [e1, e2]

theorem findDuplicate_eq_none_iff (keys : List String) :
    ∀ seen, findDuplicate keys seen = none ↔ keys.Nodup ∧ ∀ k ∈ keys, k ∉ seen := by
  induction keys with
  | nil => intro seen; simp [findDuplicate]
  | cons k rest ih =>
    intro seen
    by_cases hk : k ∈ seen
    · rw [findDuplicate, if_pos (by simpa using hk)]
      constructor
      · intro h
        exact nomatch h
      · rintro ⟨-, hall⟩
        exact absurd hk (hall k (List.mem_cons_self k rest))
    · rw [findDuplicate, if_neg (by simpa using hk)]
      rw [ih (k :: seen)]
      simp only [List.nodup_cons, List.mem_cons]
      constructor
      · rintro ⟨hn, hall⟩
        refine ⟨⟨fun hmem => (hall k hmem (Or.inl rfl)), hn⟩, ?_⟩
        rintro x (rfl | hx)
        · exact hk
        · exact fun hs => hall x hx (Or.inr hs)
      · rintro ⟨⟨hkr, hn⟩, hall⟩
        refine ⟨hn, fun x hx => ?_⟩
        rintro (rfl | hs)
        · exact hkr hx
        · exact hall x (Or.inr hx) hs

/-- **C1, counterexample.** The claim says `update` throws immediately on a
duplicate identity "for every update call"; but a call made while the
`isScrolling` flag is set (re-entry during a pass, line 156) skips the
duplicate scan and returns normally even on the duplicate sequence
`["a", "a"]`. -/
theorem c1_counterexample :
    update true ["a", "a"] = Except.ok () ∧ ¬ (["a", "a"].Nodup) :=
  ⟨rfl, by decide⟩

/-- **C1, amended.** When the engine is not mid-pass (`isScrolling = false`),
`update` raises exactly when the item key sequence contains a duplicate;
with unique keys it never raises for this reason. -/
theorem c1_update_raises_iff_duplicate (itemKeys : List String) :
    (∃ e, update false itemKeys = Except.error e) ↔ ¬ itemKeys.Nodup := by
  unfold update
  simp only [Bool.false_eq_true, if_false]
  cases hfd : findDuplicate itemKeys [] with
  | none =>
    have := (findDuplicate_eq_none_iff itemKeys []).mp hfd
    simp [this.1]
  | some k =>
    have : ¬ (findDuplicate itemKeys [] = none) := by simp [hfd]
    rw [findDuplicate_eq_none_iff itemKeys []] at this
    simp only [List.not_mem_nil, not_false_eq_true, implies_true, and_true] at this
    simp [this]

/-- **C4.** Flow layout of `[header, tile×5]` in a 300-wide container with
the kinds of the claim: the header is placed at `(0, 0)` with applied width
`300` and (estimated) height `40`; the tiles land at `(0,40)`, `(100,40)`,
`(200,40)`, `(0,90)`, `(100,90)`; the total content extent is `140`. -/
theorem c4_flow_layout_scenario :
    (scenarioC4Layout.store.lookup "h").map (fun p => (p.x, p.y)) = some (0, 0)
      ∧ scenarioC4Layout.applied.lookup "h"
          = some { left := 0, top := 0, width := some 300 }
      ∧ (scenarioC4Layout.store.lookup "h").map ItemProperties.height = some 40
      ∧ (scenarioC4Layout.store.lookup "t1").map (fun p => (p.x, p.y)) = some (0, 40)
      ∧ (scenarioC4Layout.store.lookup "t2").map (fun p => (p.x, p.y)) = some (100, 40)
      ∧ (scenarioC4Layout.store.lookup "t3").map (fun p => (p.x, p.y)) = some (200, 40)
      ∧ (scenarioC4Layout.store.lookup "t4").map (fun p => (p.x, p.y)) = some (0, 90)
      ∧ (scenarioC4Layout.store.lookup "t5").map (fun p => (p.x, p.y)) = some (100, 90)
      ∧ scenarioC4Layout.height = 140 := by
  decide

/-- **C5.** With an anchor whose item has cached properties and a nonzero
first correction `c = (scrollTop − height·itemPin + clientHeight·windowPin) − cachedY`,
one pass keeps the anchor and moves the scroll offset by `−c`; the
immediately following pass (same properties, same client height) computes a
zero correction, clears the anchor and leaves the scroll offset unchanged. -/
theorem c5_anchor_two_pass_convergence
    (a : ScrollAnchor) (itemProperties : List (String × ItemProperties))
    (itemProps : ItemProperties) (scrollTop clientHeight : ℚ)
    (hlk : itemProperties.lookup a.itemKey = some itemProps)
    (hc : scrollTop - (itemProps.height : ℚ) * a.itemPin
        + clientHeight * a.windowPin - (itemProps.y : ℚ) ≠ 0) :
    correctForScrollAnchor (some a) itemProperties scrollTop clientHeight
        = (some a, scrollTop - (scrollTop - (itemProps.height : ℚ) * a.itemPin
            + clientHeight * a.windowPin - (itemProps.y : ℚ)))
      ∧ correctForScrollAnchor (some a) itemProperties
          (scrollTop - (scrollTop - (itemProps.height : ℚ) * a.itemPin
            + clientHeight * a.windowPin - (itemProps.y : ℚ))) clientHeight
        = (none, scrollTop - (scrollTop - (itemProps.height : ℚ) * a.itemPin
            + clientHeight * a.windowPin - (itemProps.y : ℚ))) := by
  constructor
  · simp only [correctForScrollAnchor, hlk]
    rw [if_neg hc]
  · simp only [correctForScrollAnchor, hlk]
    rw [if_pos (by ring)]

theorem c5_anchor_two_pass_convergence_witness :
    ([("k", ({ y := 10, height := 20, type := "t" } : ItemProperties))].lookup
        ("k" : String) = some { y := 10, height := 20, type := "t" }
      ∧ (0 : ℚ) - (((20 : ℤ) : ℚ)) * 0 + (400 : ℚ) * 0 - (((10 : ℤ) : ℚ)) ≠ 0)
      ∧ (correctForScrollAnchor (some ⟨"k", 0, 0⟩)
            [("k", { y := 10, height := 20, type := "t" })] 0 400
          = (some ⟨"k", 0, 0⟩, 0 - (0 - (((20 : ℤ) : ℚ)) * 0 + 400 * 0 - (((10 : ℤ) : ℚ))))
        ∧ correctForScrollAnchor (some ⟨"k", 0, 0⟩)
            [("k", { y := 10, height := 20, type := "t" })]
            (0 - (0 - (((20 : ℤ) : ℚ)) * 0 + 400 * 0 - (((10 : ℤ) : ℚ)))) 400
          = (none, 0 - (0 - (((20 : ℤ) : ℚ)) * 0 + 400 * 0 - (((10 : ℤ) : ℚ))))) :=
  ⟨⟨by decide, by norm_num⟩,
    c5_anchor_two_pass_convergence ⟨"k", 0, 0⟩
      [("k", { y := 10, height := 20, type := "t" })]
      { y := 10, height := 20, type := "t" } 0 400 (by decide) (by norm_num)⟩

/-- **C6, counterexample.** The claim says `estimate(kind)` (the kind's
stored `width`/`height` averages) returns zero after `invalidate`; but
`invalidate` only zeroes the running totals — after one `(100, 50)` sample
and an `invalidate`, the stored average width is still `100`, not `0`. -/
theorem c6_counterexample :
    (((ClassProperties.fresh "t").setItemSize 100 50).invalidate).width = 100
      ∧ (100 : ℤ) ≠ 0 := by
  constructor
  · norm_num [ClassProperties.fresh, ClassProperties.setItemSize,
      ClassProperties.invalidate, jsRound]
  · norm_num

/-- **C6, amended.** `invalidate` clears `valid` and resets the sample
count and running totals to zero, while the stored average `width`/`height`
(the estimate), the kind's margin and its inline-flow flag are all
preserved, and the kind record itself survives. -/
theorem c6_invalidate_preserves_averages (cp : ClassProperties) :
    cp.invalidate.width = cp.width
      ∧ cp.invalidate.height = cp.height
      ∧ cp.invalidate.cssMargin = cp.cssMargin
      ∧ cp.invalidate.cssInline = cp.cssInline
      ∧ cp.invalidate.type = cp.type
      ∧ cp.invalidate.valid = false
      ∧ cp.invalidate.totalItemCount = 0
      ∧ cp.invalidate.totalItemWidth = 0
      ∧ cp.invalidate.totalItemHeight = 0 := by
  simp [ClassProperties.invalidate]

/-- **C7.** After recording samples `(w1,h1)…(wn,hn)` (n ≥ 1) for a fresh
kind, the stored `width`/`height` are `round(mean wᵢ)` and `round(mean hᵢ)`
— and since this holds for every sample list, it holds after every
`setItemSize` call (each intermediate state is the fold of a prefix). -/
theorem c7_running_mean (type : String) (samples : List (ℤ × ℤ))
    (h : samples ≠ []) :
    (applySamples (ClassProperties.fresh type) samples).width
        = jsRound ((((samples.map Prod.fst).sum : ℤ) : ℚ) / (samples.length : ℚ))
      ∧ (applySamples (ClassProperties.fresh type) samples).height
        = jsRound ((((samples.map Prod.snd).sum : ℤ) : ℚ) / (samples.length : ℚ)) := by
  have hm := applySamples_mean samples (ClassProperties.fresh type) h
  simpa [ClassProperties.fresh] using hm

theorem c7_running_mean_witness :
    ([((100 : ℤ), (50 : ℤ)), (101, 53)] ≠ ([] : List (ℤ × ℤ)))
      ∧ (applySamples (ClassProperties.fresh "t") [(100, 50), (101, 53)]).width = 101
      ∧ (applySamples (ClassProperties.fresh "t") [(100, 50), (101, 53)]).height = 52 := by
  have h := c7_running_mean "t" [(100, 50), (101, 53)] (by decide)
  refine ⟨by decide, ?_, ?_⟩
  · rw [h.1]; norm_num [jsRound]
  · rw [h.2]; norm_num [jsRound]

/-- **C10.** `scrollToItem` on a key that is not in the item lookup, or
whose item resolves no rectangle (no caller-supplied rect, no cached
properties), changes nothing: same state, no scroll request, no anchor. -/
theorem c10_scrollToItem_noop (s : ScrollToState) (key : String)
    (position : Option ℚ)
    (h : ∀ item, s.itemLookup.lookup key = some item →
        getItemRect s.manualLayout s.itemProperties item = none) :
    scrollToItem s key position = (s, none) := by
  cases hl : s.itemLookup.lookup key with
  | none => simp [scrollToItem, hl]
  | some item =>
    have hr := h item hl
    simp [scrollToItem, hl, hr]

theorem escapeChar_quote : escapeChar '"' = ['\\', '"'] := rfl

theorem escapeChar_backslash : escapeChar '\\' = ['\\', '\\'] := rfl

theorem escapeChar_toNat8 (c : Char) (h : c.toNat = 8) :
    escapeChar c = ['\\', 'b'] := by
  have hc : c = Char.ofNat 8 := by rw [← h]; exact (Char.ofNat_toNat c).symm
  subst hc; rfl

theorem escapeChar_toNat9 (c : Char) (h : c.toNat = 9) :
    escapeChar c = ['\\', 't'] := by
  have hc : c = Char.ofNat 9 := by rw [← h]; exact (Char.ofNat_toNat c).symm
  subst hc; rfl

theorem escapeChar_toNat10 (c : Char) (h : c.toNat = 10) :
    escapeChar c = ['\\', 'n'] := by
  have hc : c = Char.ofNat 10 := by rw [← h]; exact (Char.ofNat_toNat c).symm
  subst hc; rfl

theorem escapeChar_toNat12 (c : Char) (h : c.toNat = 12) :
    escapeChar c = ['\\', 'f'] := by
  have hc : c = Char.ofNat 12 := by rw [← h]; exact (Char.ofNat_toNat c).symm
  subst hc; rfl

theorem escapeChar_toNat13 (c : Char) (h : c.toNat = 13) :
    escapeChar c = ['\\', 'r'] := by
  have hc : c = Char.ofNat 13 := by rw [← h]; exact (Char.ofNat_toNat c).symm
  subst hc; rfl

theorem escapeChar_control (c : Char) (h : c.toNat < 32)
    (h8 : c.toNat ≠ 8) (h9 : c.toNat ≠ 9) (h10 : c.toNat ≠ 10)
    (h12 : c.toNat ≠ 12) (h13 : c.toNat ≠ 13) :
    escapeChar c
      = ['\\', 'u', '0', '0', hexDigitChar (c.toNat / 16), hexDigitChar (c.toNat % 16)] := by
  have hq : c ≠ '"' := fun he => by subst he; exact absurd h (by decide)
  have hb : c ≠ '\\' := fun he => by subst he; exact absurd h (by decide)
  rw [escapeChar, if_neg hq, if_neg hb, if_neg h8, if_neg h9, if_neg h10,
    if_neg h12, if_neg h13, if_pos h]

theorem escapeChar_plain (c : Char) (hq : c ≠ '"') (hb : c ≠ '\\')
    (h : ¬ c.toNat < 32) : escapeChar c = [c] := by
  rw [escapeChar, if_neg hq, if_neg hb, if_neg (by omega), if_neg (by omega),
    if_neg (by omega), if_neg (by omega), if_neg (by omega), if_neg h]

theorem parseJsonString_quote (r : List Char) :
    parseJsonString ('"' :: r) = some ([], r) := by
  rw [parseJsonString.eq_def]
  simp +decide only [if_true, if_false]

theorem parseJsonString_esc_quote (r : List Char) :
    parseJsonString ('\\' :: '"' :: r) = consDecoded '"' (parseJsonString r) := by
  rw [parseJsonString.eq_def]
  simp +decide only [if_true, if_false]

theorem parseJsonString_esc_backslash (r : List Char) :
    parseJsonString ('\\' :: '\\' :: r) = consDecoded '\\' (parseJsonString r) := by
  rw [parseJsonString.eq_def]
  simp +decide only [if_true, if_false]

theorem parseJsonString_esc_b (r : List Char) :
    parseJsonString ('\\' :: 'b' :: r)
      = consDecoded (Char.ofNat 8) (parseJsonString r) := by
  rw [parseJsonString.eq_def]
  simp +decide only [if_true, if_false]

theorem parseJsonString_esc_t (r : List Char) :
    parseJsonString ('\\' :: 't' :: r)
      = consDecoded (Char.ofNat 9) (parseJsonString r) := by
  rw [parseJsonString.eq_def]
  simp +decide only [if_true, if_false]

theorem parseJsonString_esc_n (r : List Char) :
    parseJsonString ('\\' :: 'n' :: r)
      = consDecoded (Char.ofNat 10) (parseJsonString r) := by
  rw [parseJsonString.eq_def]
  simp +decide only [if_true, if_false]

theorem parseJsonString_esc_f (r : List Char) :
    parseJsonString ('\\' :: 'f' :: r)
      = consDecoded (Char.ofNat 12) (parseJsonString r) := by
  rw [parseJsonString.eq_def]
  simp +decide only [if_true, if_false]

theorem parseJsonString_esc_r (r : List Char) :
    parseJsonString ('\\' :: 'r' :: r)
      = consDecoded (Char.ofNat 13) (parseJsonString r) := by
  rw [parseJsonString.eq_def]
  simp +decide only [if_true, if_false]

theorem parseJsonString_plain (c : Char) (hq : c ≠ '"') (hb : c ≠ '\\')
    (r : List Char) :
    parseJsonString (c :: r) = consDecoded c (parseJsonString r) := by
  rw [parseJsonString.eq_def]
  simp only [if_neg hq, if_neg hb]

theorem parseJsonString_unicode (h1 h2 h3 h4 : Char) (v1 v2 v3 v4 : ℕ)
    (r : List Char) (e1 : hexVal h1 = some v1) (e2 : hexVal h2 = some v2)
    (e3 : hexVal h3 = some v3) (e4 : hexVal h4 = some v4) :
    parseJsonString ('\\' :: 'u' :: h1 :: h2 :: h3 :: h4 :: r)
      = consDecoded (Char.ofNat (((v1 * 16 + v2) * 16 + v3) * 16 + v4))
          (parseJsonString r) := by
  rw [parseJsonString.eq_def]
  simp +decide only [if_true, if_false, e1, e2, e3, e4]

theorem hexVal_hexDigitChar : ∀ n < 16, hexVal (hexDigitChar n) = some n := by
  decide

theorem parseJsonString_escapeChars (s : List Char) :
    ∀ r, parseJsonString (escapeChars s ++ '"' :: r) = some (s, r) := by
  induction s with
  | nil =>
    intro r
    simpa [escapeChars] using parseJsonString_quote r
  | cons c s ih =>
    intro r
    have hsplit : escapeChars (c :: s) ++ '"' :: r
        = escapeChar c ++ (escapeChars s ++ '"' :: r) := by
      simp [escapeChars]
    rw [hsplit]
    by_cases hq : c = '"'
    · subst hq
      rw [escapeChar_quote]
      simp only [List.cons_append, List.nil_append]
      rw [parseJsonString_esc_quote, ih r]
      rfl
    · by_cases hb : c = '\\'
      · subst hb
        rw [escapeChar_backslash]
        simp only [List.cons_append, List.nil_append]
        rw [parseJsonString_esc_backslash, ih r]
        rfl
      · by_cases h8 : c.toNat = 8
        · rw [escapeChar_toNat8 c h8]
          simp only [List.cons_append, List.nil_append]
          rw [parseJsonString_esc_b, ih r]
          simp only [consDecoded]
          rw [← h8, Char.ofNat_toNat]
        · by_cases h9 : c.toNat = 9
          · rw [escapeChar_toNat9 c h9]
            simp only [List.cons_append, List.nil_append]
            rw [parseJsonString_esc_t, ih r]
            simp only [consDecoded]
            rw [← h9, Char.ofNat_toNat]
          · by_cases h10 : c.toNat = 10
            · rw [escapeChar_toNat10 c h10]
              simp only [List.cons_append, List.nil_append]
              rw [parseJsonString_esc_n, ih r]
              simp only [consDecoded]
              rw [← h10, Char.ofNat_toNat]
            · by_cases h12 : c.toNat = 12
              · rw [escapeChar_toNat12 c h12]
                simp only [List.cons_append, List.nil_append]
                rw [parseJsonString_esc_f, ih r]
                simp only [consDecoded]
                rw [← h12, Char.ofNat_toNat]
              · by_cases h13 : c.toNat = 13
                · rw [escapeChar_toNat13 c h13]
                  simp only [List.cons_append, List.nil_append]
                  rw [parseJsonString_esc_r, ih r]
                  simp only [consDecoded]
                  rw [← h13, Char.ofNat_toNat]
                · by_cases hctl : c.toNat < 32
                  · rw [escapeChar_control c hctl h8 h9 h10 h12 h13]
                    simp only [List.cons_append, List.nil_append]
                    rw [parseJsonString_unicode '0' '0'
                        (hexDigitChar (c.toNat / 16)) (hexDigitChar (c.toNat % 16))
                        0 0 (c.toNat / 16) (c.toNat % 16) _
                        (by decide) (by decide)
                        (hexVal_hexDigitChar (c.toNat / 16) (by omega))
                        (hexVal_hexDigitChar (c.toNat % 16) (by omega)),
                      ih r]
                    simp only [consDecoded]
                    have hv : ((0 * 16 + 0) * 16 + c.toNat / 16) * 16 + c.toNat % 16
                        = c.toNat := by omega
                    rw [hv, Char.ofNat_toNat]
                  · rw [escapeChar_plain c hq hb hctl]
                    simp only [List.cons_append, List.nil_append]
                    rw [parseJsonString_plain c hq hb, ih r]
                    rfl

theorem renderArrayRest_length (l : List (List Char)) :
    l.length ≤ (renderArrayRest l).length := by
  induction l with
  | nil => simp [renderArrayRest]
  | cons s rest ih =>
    simp only [renderArrayRest, List.length_cons, List.length_append]
    omega

theorem parseArrayRest_render (l : List (List Char)) :
    ∀ fuel, l.length ≤ fuel → parseArrayRest fuel (renderArrayRest l) = some l := by
  induction l with
  | nil =>
    intro fuel _
    have hr : renderArrayRest ([] : List (List Char)) = [']'] := rfl
    rw [hr, parseArrayRest.eq_def]
    simp +decide only [if_true, if_false]
  | cons s rest ih =>
    intro fuel hf
    obtain ⟨f, rfl⟩ : ∃ f, fuel = f + 1 :=
      ⟨fuel - 1, by simp only [List.length_cons] at hf; omega⟩
    have hsplit : renderArrayRest (s :: rest)
        = ',' :: ('"' :: (escapeChars s ++ '"' :: renderArrayRest rest)) := by
      simp [renderArrayRest, renderString]
    rw [hsplit, parseArrayRest.eq_def]
    simp +decide only [if_true, if_false]
    rw [parseJsonString_escapeChars s (renderArrayRest rest)]
    show Option.map (fun l => s :: l) (parseArrayRest f (renderArrayRest rest))
        = some (s :: rest)
    rw [ih f (by simp only [List.length_cons] at hf; omega)]
    rfl

theorem parseArray_render (l : List (List Char)) :
    parseArray (renderArray l) = some l := by
  cases l with
  | nil => rfl
  | cons s rest =>
    have hsplit : renderArray (s :: rest)
        = '[' :: ('"' :: (escapeChars s ++ '"' :: renderArrayRest rest)) := by
      simp [renderArray, renderString]
    rw [hsplit, parseArray.eq_def]
    have hne : ('"' :: (escapeChars s ++ '"' :: renderArrayRest rest)) ≠ [']'] := by
      simp
    simp +decide only [if_true, if_false]
    rw [if_neg hne]
    rw [parseJsonString_escapeChars s (renderArrayRest rest)]
    show Option.map (fun l => s :: l)
        (parseArrayRest (renderArrayRest rest).length (renderArrayRest rest))
        = some (s :: rest)
    rw [parseArrayRest_render rest _ (renderArrayRest_length rest)]
    rfl

theorem renderArray_injective (a b : List (List Char))
    (h : renderArray a = renderArray b) : a = b := by
  have ha := parseArray_render a
  rw [h, parseArray_render b] at ha
  exact (Option.some_inj.mp ha).symm

theorem jsonStringify_injective (a b : List String)
    (h : jsonStringify a = jsonStringify b) : a = b := by
  have hdata : renderArray (a.map String.data) = renderArray (b.map String.data) := by
    have := congrArg String.data h
    simpa [jsonStringify] using this
  have hmaps := renderArray_injective _ _ hdata
  have hinj : Function.Injective (List.map String.data) :=
    List.map_injective_iff.mpr fun x y hxy => by
      cases x; cases y
      exact congrArg String.mk (by simpa using hxy)
  exact hinj hmaps

/-- **C8.** The host re-render callback fires iff the new ordered key
sequence differs from the previous one element-wise: the code's guard
(length mismatch or `JSON.stringify` mismatch) is equivalent to value
inequality of the two key lists, because `JSON.stringify` on a string array
is injective. -/
theorem c8_rerender_iff_value_change (oldKeys newKeys : List String) :
    updateIndexesFires oldKeys newKeys = true ↔ oldKeys ≠ newKeys := by
  unfold updateIndexesFires
  simp only [Bool.or_eq_true, decide_eq_true_eq]
  constructor
  · rintro (hlen | hjson)
    · exact fun he => hlen (by rw [he])
    · exact fun he => hjson (by rw [he])
  · intro hne
    right
    intro hj
    exact hne (jsonStringify_injective _ _ hj)

theorem mem_addSet (l : List String) (k a : String) :
    a ∈ addSet l k ↔ a ∈ l ∨ a = k := by
  unfold addSet
  by_cases h : k ∈ l
  · rw [if_pos h]
    constructor
    · exact Or.inl
    · rintro (h' | rfl)
      · exact h'
      · exact h
  · rw [if_neg h]
    simp

theorem mem_foldl_addSet {α : Type} (f : α → String) (xs : List α) :
    ∀ (l : List String) (k : String),
      k ∈ xs.foldl (fun r x => addSet r (f x)) l ↔ k ∈ l ∨ k ∈ xs.map f := by
  induction xs with
  | nil => intro l k; simp
  | cons x rest ih =>
    intro l k
    rw [List.foldl_cons, ih (addSet l (f x)) k, mem_addSet]
    simp
    tauto

theorem assocLookup_cons_self (a b : String) (rest : List (String × String)) :
    ((a, b) :: rest).lookup a = some b := by
  simp [List.lookup]

theorem assocLookup_cons_ne (a b t : String) (rest : List (String × String))
    (h : t ≠ a) : ((a, b) :: rest).lookup t = rest.lookup t := by
  simp [List.lookup, beq_eq_false_iff_ne.mpr h]

theorem assocLookup_append (p q : List (String × String)) (t : String) :
    (p ++ q).lookup t = ((p.lookup t).or (q.lookup t)) := by
  induction p with
  | nil => simp [List.lookup]
  | cons e rest ih =>
    obtain ⟨a, b⟩ := e
    by_cases h : t = a
    · subst h
      rw [List.cons_append, assocLookup_cons_self, assocLookup_cons_self]
      rfl
    · rw [List.cons_append, assocLookup_cons_ne a b t _ h,
        assocLookup_cons_ne a b t _ h]
      exact ih

theorem assocLookup_eq_none_iff (p : List (String × String)) (t : String) :
    p.lookup t = none ↔ t ∉ p.map Prod.fst := by
  induction p with
  | nil => simp [List.lookup]
  | cons e rest ih =>
    obtain ⟨a, b⟩ := e
    by_cases h : t = a
    · subst h
      rw [assocLookup_cons_self]
      simp
    · rw [assocLookup_cons_ne a b t _ h, ih]
      simp [h]

theorem assocLookup_mem (p : List (String × String)) (t v : String)
    (h : p.lookup t = some v) : (t, v) ∈ p := by
  induction p with
  | nil => simp [List.lookup] at h
  | cons e rest ih =>
    obtain ⟨a, b⟩ := e
    by_cases ht : t = a
    · subst ht
      rw [assocLookup_cons_self] at h
      simp only [Option.some_inj] at h
      subst h
      exact List.mem_cons_self _ _
    · rw [assocLookup_cons_ne a b t _ ht] at h
      exact List.mem_cons_of_mem _ (ih h)

theorem mem_snd_iff_lookup (p : List (String × String)) :
    (p.map Prod.fst).Nodup → ∀ k,
      (k ∈ p.map Prod.snd ↔ ∃ t, p.lookup t = some k) := by
  induction p with
  | nil =>
    intro _ k
    simp [List.lookup]
  | cons e rest ih =>
    intro hnd k
    obtain ⟨a, b⟩ := e
    simp only [List.map_cons, List.nodup_cons] at hnd
    obtain ⟨hna, hndr⟩ := hnd
    simp only [List.map_cons, List.mem_cons]
    constructor
    · rintro (rfl | hmem)
      · exact ⟨a, assocLookup_cons_self a k rest⟩
      · obtain ⟨t, ht⟩ := (ih hndr k).mp hmem
        have htne : t ≠ a := by
          rintro rfl
          exact hna (List.mem_map.mpr ⟨(t, k), assocLookup_mem rest t k ht, rfl⟩)
        exact ⟨t, by rw [assocLookup_cons_ne a b t rest htne]; exact ht⟩
    · rintro ⟨t, ht⟩
      by_cases hta : t = a
      · subst hta
        rw [assocLookup_cons_self] at ht
        exact Or.inl (Option.some_inj.mp ht).symm
      · rw [assocLookup_cons_ne a b t rest hta] at ht
        exact Or.inr ((ih hndr k).mpr ⟨t, ht⟩)

theorem scanItems_render_mem (vi : VisibilityInput) (top bottom : ℤ)
    (presize : Bool) (items : List VItem) :
    ∀ (render existing : List String) (presizeTypes : List (String × String))
      (k : String),
      k ∈ (scanItems vi top bottom presize items render existing presizeTypes).1
        ↔ k ∈ render
          ∨ ∃ i ∈ items, passesWindow vi top bottom i = true ∧ i.key = k := by
  induction items with
  | nil =>
    intro render existing presizeTypes k
    simp [scanItems]
  | cons item rest ih =>
    intro render existing presizeTypes k
    by_cases hp : passesWindow vi top bottom item = true
    · simp only [scanItems, hp, if_true]
      rw [ih]
      simp only [mem_addSet, hp, List.mem_cons]
      constructor
      · rintro ((h | rfl) | ⟨i, hi, hpi, rfl⟩)
        · exact Or.inl h
        · exact Or.inr ⟨item, Or.inl rfl, hp, rfl⟩
        · exact Or.inr ⟨i, Or.inr hi, hpi, rfl⟩
      · rintro (h | ⟨i, (rfl | hi), hpi, rfl⟩)
        · exact Or.inl (Or.inl h)
        · exact Or.inl (Or.inr rfl)
        · exact Or.inr ⟨i, hi, hpi, rfl⟩
    · simp only [scanItems, hp, Bool.false_eq_true, if_false]
      have tailEquiv : ∀ (pt : List (String × String)),
          k ∈ (scanItems vi top bottom presize rest render
              (addSet existing item.key) pt).1
            ↔ k ∈ render
              ∨ ∃ i ∈ item :: rest, passesWindow vi top bottom i = true ∧ i.key = k := by
        intro pt
        rw [ih]
        simp only [List.mem_cons]
        constructor
        · rintro (h | ⟨i, hi, hpi, rfl⟩)
          · exact Or.inl h
          · exact Or.inr ⟨i, Or.inr hi, hpi, rfl⟩
        · rintro (h | ⟨i, (rfl | hi), hpi, rfl⟩)
          · exact Or.inl h
          · exact absurd hpi hp
          · exact Or.inr ⟨i, hi, hpi, rfl⟩
      by_cases hps : (presize && (presizeTypes.lookup item.type).isNone) = true
      · rw [if_pos hps]
        exact tailEquiv _
      · rw [if_neg hps]
        exact tailEquiv _

theorem scanItems_render_eq_nil (vi : VisibilityInput) (top bottom : ℤ)
    (presize : Bool) (items : List VItem) (render existing : List String)
    (presizeTypes : List (String × String)) :
    (scanItems vi top bottom presize items render existing presizeTypes).1 = []
      ↔ render = [] ∧ ∀ i ∈ items, passesWindow vi top bottom i = false := by
  rw [List.eq_nil_iff_forall_not_mem]
  constructor
  · intro h
    constructor
    · rw [List.eq_nil_iff_forall_not_mem]
      intro a ha
      exact h a ((scanItems_render_mem vi top bottom presize items render
        existing presizeTypes a).mpr (Or.inl ha))
    · intro i hi
      by_contra hpi
      rw [Bool.not_eq_false] at hpi
      exact h i.key ((scanItems_render_mem vi top bottom presize items render
        existing presizeTypes i.key).mpr (Or.inr ⟨i, hi, hpi, rfl⟩))
  · rintro ⟨hr, hall⟩ a ha
    rcases (scanItems_render_mem vi top bottom presize items render
        existing presizeTypes a).mp ha with hmem | ⟨i, hi, hpi, rfl⟩
    · rw [hr] at hmem
      simp at hmem
    · rw [hall i hi] at hpi
      exact nomatch hpi

theorem scanItems_presize_false (vi : VisibilityInput) (top bottom : ℤ)
    (items : List VItem) :
    ∀ (render existing : List String) (presizeTypes : List (String × String)),
      (scanItems vi top bottom false items render existing presizeTypes).2.2
        = presizeTypes := by
  induction items with
  | nil => intro render existing presizeTypes; simp [scanItems]
  | cons item rest ih =>
    intro render existing presizeTypes
    by_cases hp : passesWindow vi top bottom item = true
    · simp only [scanItems, hp, if_true]
      exact ih _ _ _
    · simp only [scanItems, hp, Bool.false_eq_true, if_false,
        Bool.false_and, Bool.false_eq_true, if_false]
      exact ih _ _ _

theorem scanItems_presize_lookup (vi : VisibilityInput) (top bottom : ℤ)
    (items : List VItem) :
    ∀ (render existing : List String) (presizeTypes : List (String × String))
      (t : String),
      ((scanItems vi top bottom true items render existing presizeTypes).2.2).lookup t
        = ((presizeTypes.lookup t).or
            ((items.find? (fun j => !passesWindow vi top bottom j && j.type == t)).map
              VItem.key)) := by
  induction items with
  | nil =>
    intro render existing presizeTypes t
    simp only [scanItems, List.find?]
    cases presizeTypes.lookup t <;> rfl
  | cons item rest ih =>
    intro render existing presizeTypes t
    by_cases hp : passesWindow vi top bottom item = true
    · simp only [scanItems, hp, if_true]
      rw [ih]
      have hfind : (item :: rest).find?
          (fun j => !passesWindow vi top bottom j && j.type == t)
          = rest.find? (fun j => !passesWindow vi top bottom j && j.type == t) := by
        rw [List.find?_cons_of_neg]
        simp [hp]
      rw [hfind]
    · simp only [scanItems, hp, Bool.false_eq_true, if_false, Bool.true_and]
      by_cases hlk : (presizeTypes.lookup item.type).isNone = true
      · rw [if_pos hlk, ih]
        rw [assocLookup_append]
        have h1 : presizeTypes.lookup item.type = none :=
          Option.isNone_iff_eq_none.mp hlk
        by_cases ht : t = item.type
        · rw [ht, h1]
          have hfind : (item :: rest).find?
              (fun j => !passesWindow vi top bottom j && j.type == item.type)
              = some item := by
            rw [List.find?_cons_of_pos]
            simp [hp]
          rw [hfind, assocLookup_cons_self]
          rfl
        · have h2 : ([(item.type, item.key)] : List (String × String)).lookup t
              = none := by
            rw [assocLookup_cons_ne _ _ _ _ ht]
            rfl
          have hfind : (item :: rest).find?
              (fun j => !passesWindow vi top bottom j && j.type == t)
              = rest.find? (fun j => !passesWindow vi top bottom j && j.type == t) := by
            rw [List.find?_cons_of_neg _ (by
              simp only [Bool.and_eq_true, beq_iff_eq, not_and]
              intro _ hty
              exact ht hty.symm)]
          rw [h2, hfind]
          cases presizeTypes.lookup t <;> rfl
      · rw [if_neg hlk, ih]
        obtain ⟨v, hv⟩ : ∃ v, presizeTypes.lookup item.type = some v := by
          cases hv : presizeTypes.lookup item.type
          · rw [hv] at hlk; exact absurd rfl hlk
          · exact ⟨_, rfl⟩
        by_cases ht : t = item.type
        · rw [ht, hv]
          rfl
        · have hfind : (item :: rest).find?
              (fun j => !passesWindow vi top bottom j && j.type == t)
              = rest.find? (fun j => !passesWindow vi top bottom j && j.type == t) := by
            rw [List.find?_cons_of_neg _ (by
              simp only [Bool.and_eq_true, beq_iff_eq, not_and]
              intro _ hty
              exact ht hty.symm)]
          rw [hfind]

theorem scanItems_presize_keys_nodup (vi : VisibilityInput) (top bottom : ℤ)
    (presize : Bool) (items : List VItem) :
    ∀ (render existing : List String) (presizeTypes : List (String × String)),
      (presizeTypes.map Prod.fst).Nodup →
      (((scanItems vi top bottom presize items render existing presizeTypes).2.2).map
          Prod.fst).Nodup := by
  induction items with
  | nil =>
    intro render existing presizeTypes h
    simpa [scanItems] using h
  | cons item rest ih =>
    intro render existing presizeTypes h
    by_cases hp : passesWindow vi top bottom item = true
    · simp only [scanItems, hp, if_true]
      exact ih _ _ _ h
    · simp only [scanItems, hp, Bool.false_eq_true, if_false]
      by_cases hps : (presize && (presizeTypes.lookup item.type).isNone) = true
      · rw [if_pos hps]
        refine ih _ _ _ ?_
        have hnone : presizeTypes.lookup item.type = none := by
          simp only [Bool.and_eq_true] at hps
          exact Option.isNone_iff_eq_none.mp hps.2
        have hnotmem : item.type ∉ presizeTypes.map Prod.fst :=
          (assocLookup_eq_none_iff presizeTypes item.type).mp hnone
        simp only [List.map_append, List.map_cons, List.map_nil]
        rw [List.nodup_append]
        exact ⟨h, List.nodup_singleton _, by
          intro a ha hb
          simp only [List.mem_singleton] at hb
          subst hb
          exact hnotmem ha⟩
      · rw [if_neg hps]
        exact ih _ _ _ h

/-- **C2, amended.** Exact characterization of the desired key set built by
`getRenderItemIndices`: a key is rendered iff (1) some item carrying it
passes the window test — where the window is
`[max(0, max(0,scrollTop) − trailingMargin), top + pageSize + bothMargins]`,
clamped at zero, not the claim's
`[scrollOffset − margin_behind, scrollOffset + viewportHeight + margin_ahead]`
— or (2) no item passed the test and it is among the first 30 item keys, or
(3) it is the focused key, or (4) under flow layout it is the first item of
its kind to fail the window test (the presize candidate — recorded for every
kind with an off-window item, not only still-unmeasured kinds). -/
theorem c2_desired_key_characterization (vi : VisibilityInput)
    (scrollDirection : ℤ) (k : String) :
    k ∈ (getRenderItemIndices vi scrollDirection).1
      ↔ desiredKeySpec vi scrollDirection k := by
  unfold getRenderItemIndices desiredKeySpec
  simp only []
  set top := (renderWindow vi scrollDirection).1 with htopdef
  set bottom := (renderWindow vi scrollDirection).2 with hbotdef
  set S := scanItems vi top bottom (!vi.manualLayout) vi.items [] [] [] with hSdef
  rw [mem_foldl_addSet]
  have hin : k ∈ S.1 ↔ ∃ i ∈ vi.items, passesWindow vi top bottom i = true ∧ i.key = k := by
    rw [hSdef, scanItems_render_mem]
    simp
  have hP : k ∈ S.2.2.map Prod.snd
      ↔ (vi.manualLayout = false
          ∧ ∃ i, vi.items.find?
              (fun j => !passesWindow vi top bottom j && j.type == i.type) = some i
            ∧ i.key = k) := by
    cases hm : vi.manualLayout with
    | true =>
      rw [hSdef]
      simp only [hm, Bool.not_true]
      rw [scanItems_presize_false]
      simp
    | false =>
      rw [hSdef]
      simp only [hm, Bool.not_false, eq_self_iff_true, true_and]
      rw [mem_snd_iff_lookup _
        (scanItems_presize_keys_nodup vi top bottom true vi.items [] [] [] (by simp)) k]
      constructor
      · rintro ⟨t, ht⟩
        rw [scanItems_presize_lookup] at ht
        cases hfind : vi.items.find?
            (fun j => !passesWindow vi top bottom j && j.type == t) with
        | none =>
          rw [hfind] at ht
          simp [List.lookup] at ht
        | some i =>
          rw [hfind] at ht
          simp only [List.lookup, Option.map_some'] at ht
          have hkey : i.key = k := by
            rw [show Option.or none (some i.key) = some i.key from rfl] at ht
            exact Option.some_inj.mp ht
          have hpred := List.find?_some hfind
          have htype : i.type = t := by
            simp only [Bool.and_eq_true, beq_iff_eq] at hpred
            exact hpred.2
          exact ⟨i, by rw [htype]; exact hfind, hkey⟩
      · rintro ⟨i, hfind, hkey⟩
        refine ⟨i.type, ?_⟩
        rw [scanItems_presize_lookup, hfind]
        simp [List.lookup, hkey]
  rw [hP]
  cases hfoc : vi.focusedKey with
  | none =>
    simp only [reduceCtorEq, false_or]
    by_cases hlen : S.1.length = 0
    · rw [if_pos hlen]
      rw [mem_foldl_addSet]
      have hSnil : S.1 = [] := List.length_eq_zero.mp hlen
      have hall : ∀ i ∈ vi.items, passesWindow vi top bottom i = false := by
        have := (by rw [hSdef] at hSnil; exact hSnil :
          (scanItems vi top bottom (!vi.manualLayout) vi.items [] [] []).1 = [])
        exact ((scanItems_render_eq_nil vi top bottom (!vi.manualLayout)
          vi.items [] [] []).mp this).2
      have hnoW : ¬ ∃ i ∈ vi.items, passesWindow vi top bottom i = true ∧ i.key = k := by
        rintro ⟨i, hi, hpi, -⟩
        rw [hall i hi] at hpi
        exact nomatch hpi
      rw [hin]
      constructor
      · rintro ((hW | h30) | hPS)
        · exact absurd hW hnoW
        · exact Or.inr (Or.inl ⟨hall, h30⟩)
        · exact Or.inr (Or.inr hPS)
      · rintro (hW | (⟨-, h30⟩ | hPS))
        · exact absurd hW hnoW
        · exact Or.inl (Or.inr h30)
        · exact Or.inr hPS
    · rw [if_neg hlen]
      have hnall : ¬ ∀ i ∈ vi.items, passesWindow vi top bottom i = false := by
        intro hall
        apply hlen
        rw [List.length_eq_zero, hSdef]
        exact (scanItems_render_eq_nil vi top bottom (!vi.manualLayout)
          vi.items [] [] []).mpr ⟨rfl, hall⟩
      rw [hin]
      constructor
      · rintro (hW | hPS)
        · exact Or.inl hW
        · exact Or.inr (Or.inr hPS)
      · rintro (hW | (⟨hall, -⟩ | hPS))
        · exact Or.inl hW
        · exact absurd hall hnall
        · exact Or.inr hPS
  | some f =>
    simp only [Option.some.injEq]
    rw [mem_addSet]
    by_cases hlen : S.1.length = 0
    · rw [if_pos hlen]
      rw [mem_foldl_addSet]
      have hSnil : S.1 = [] := List.length_eq_zero.mp hlen
      have hall : ∀ i ∈ vi.items, passesWindow vi top bottom i = false := by
        have := (by rw [hSdef] at hSnil; exact hSnil :
          (scanItems vi top bottom (!vi.manualLayout) vi.items [] [] []).1 = [])
        exact ((scanItems_render_eq_nil vi top bottom (!vi.manualLayout)
          vi.items [] [] []).mp this).2
      have hnoW : ¬ ∃ i ∈ vi.items, passesWindow vi top bottom i = true ∧ i.key = k := by
        rintro ⟨i, hi, hpi, -⟩
        rw [hall i hi] at hpi
        exact nomatch hpi
      rw [hin]
      constructor
      · rintro (((hW | h30) | hkf) | hPS)
        · exact absurd hW hnoW
        · exact Or.inr (Or.inl ⟨hall, h30⟩)
        · exact Or.inr (Or.inr (Or.inl hkf.symm))
        · exact Or.inr (Or.inr (Or.inr hPS))
      · rintro (hW | (⟨-, h30⟩ | (hfk | hPS)))
        · exact absurd hW hnoW
        · exact Or.inl (Or.inl (Or.inr h30))
        · exact Or.inl (Or.inr hfk.symm)
        · exact Or.inr hPS
    · rw [if_neg hlen]
      have hnall : ¬ ∀ i ∈ vi.items, passesWindow vi top bottom i = false := by
        intro hall
        apply hlen
        rw [List.length_eq_zero, hSdef]
        exact (scanItems_render_eq_nil vi top bottom (!vi.manualLayout)
          vi.items [] [] []).mpr ⟨rfl, hall⟩
      rw [hin]
      constructor
      · rintro ((hW | hkf) | hPS)
        · exact Or.inl hW
        · exact Or.inr (Or.inr (Or.inl hkf.symm))
        · exact Or.inr (Or.inr (Or.inr hPS))
      · rintro (hW | (⟨hall, -⟩ | (hfk | hPS)))
        · exact Or.inl (Or.inl hW)
        · exact absurd hall hnall
        · exact Or.inl (Or.inr hfk.symm)
        · exact Or.inr hPS

/-- **C2, counterexample.** At scroll offset `0` (smaller than the behind
margin of 100), viewport 400, scrolling downward: item `"a"` with rectangle
`y ∈ [950, 960]` lies entirely outside the claim's window
`[0 − 100, 0 + 400 + 500] = [−100, 900]`, the intersecting set is nonempty
(item `"b"` intersects), no item is focused, and layout is manual (so no
presize candidates) — yet the code includes `"a"`, because it clamps the
window top at `0` and then spans the full `pageSize + 600` below it,
giving `[0, 1000]`. -/
theorem c2_counterexample :
    "a" ∈ (getRenderItemIndices scenarioC2 1).1
      ∧ ¬ claimWindowTest 0 400 500 100 { x := 0, y := 950, width := 100, height := 10 }
      ∧ claimWindowTest 0 400 500 100 { x := 0, y := 100, width := 100, height := 50 }
      ∧ scenarioC2.focusedKey = none
      ∧ scenarioC2.manualLayout = true := by
  refine ⟨by decide, ?_, ?_, rfl, rfl⟩
  · unfold claimWindowTest
    decide
  · unfold claimWindowTest
    decide

/-- **C3, counterexample.** In the claim's scenario the asymmetric test
itself admits index 38 (`50·38 = 1900 ≤ 1900`), so the selected set is not
`[18, 37]`: the code renders key `"38"`, which is outside `[18, 37]`. -/
theorem c3_counterexample :
    "38" ∈ (getRenderItemIndices scenarioC3 1).1
      ∧ "38" ∉ ((List.range 38).drop 18).map (fun n => toString n) := by
  refine ⟨by decide, by decide⟩

/-- **C3, amended.** Viewport 400, scroll offset 1000, margins ahead 500 /
behind 100, items 50px tall from `y = 0` with caller-supplied rectangles:
the Visibility Calculator selects exactly the items with index in
`[18, 38]` inclusive, the boundaries decided by `y + 50 > 900` and
`y ≤ 1900` (index 38 has `y = 1900 ≤ 1900`). -/
theorem c3_scenario_selects_18_to_38 :
    (getRenderItemIndices scenarioC3 1).1
      = ((List.range 39).drop 18).map (fun n => toString n) := by
  decide

/-- **C9, counterexample.** With previous keys `["a","b"]`, desired set
`{"a"}` and both items still existing, key `"b"` (previously rendered, no
longer desired, still existing) is retained — but its element's `display` is
set to `""` (shown), not to the claimed not-displayed treatment: the code's
`deleted = !existingKeys.has(key)` hides only keys whose items no longer
exist (the source comment at line 185 — "it may have been temporarily
hidden" for a missing item — confirms this reading). -/
theorem c9_counterexample :
    getStableArraySpec ["a", "b"] ["a"] ["a", "b"] = ["a", "b"]
      ∧ (applyDisplayStyles (getStableArraySpec ["a", "b"] ["a"] ["a", "b"])
          ["a", "b"]).lookup "b" = some ""
      ∧ ("" : String) ≠ "none" := by
  refine ⟨rfl, rfl, ?_⟩
  decide

/-- **C9, amended.** Membership in the reconciled sequence (spec-modelled
`getStableArray`): a key survives iff it was previously rendered and is
still desired or still exists in the data, or it is newly desired — so
undesired-but-existing keys are retained and keys whose items no longer
exist (and are not desired) are dropped.  The `display: "none"` treatment
from `updateIndexes` (lines 508-517) is applied to an output key iff its
item does NOT exist in the data; retained keys with existing items keep
`display: ""` (shown). -/
theorem c9_retention_and_hiding
    (previousKeys desiredKeys existingKeys : List String) (k : String) :
    (k ∈ getStableArraySpec previousKeys desiredKeys existingKeys
      ↔ (k ∈ previousKeys ∧ (k ∈ desiredKeys ∨ k ∈ existingKeys))
        ∨ (k ∈ desiredKeys ∧ k ∉ previousKeys))
    ∧ ((k, "none") ∈ applyDisplayStyles
          (getStableArraySpec previousKeys desiredKeys existingKeys) existingKeys
      ↔ k ∈ getStableArraySpec previousKeys desiredKeys existingKeys
        ∧ k ∉ existingKeys) := by
  constructor
  · simp [getStableArraySpec, List.mem_filter, List.mem_append]
  · unfold applyDisplayStyles
    rw [List.mem_map]
    constructor
    · rintro ⟨key, hkey, heq⟩
      rw [Prod.mk.injEq] at heq
      obtain ⟨rfl, hd⟩ := heq
      refine ⟨hkey, fun hmem => ?_⟩
      rw [if_pos (by simpa using hmem)] at hd
      exact absurd hd (by decide)
    · rintro ⟨hmem, hnot⟩
      refine ⟨k, hmem, ?_⟩
      rw [if_neg (by simpa using hnot)]

theorem c10_scrollToItem_noop_witness :
    scrollToItem scenarioC10 "a" (some (1 / 2)) = (scenarioC10, none) :=
  c10_scrollToItem_noop scenarioC10 "a" (some (1 / 2)) (fun item hi => by
    have h2 : ({ key := "a", type := "t", manualRect := none } : VItem) = item := by
      simpa [scenarioC10] using hi
    subst h2
    rfl)

end VirtualManager
